import Mathlib

/-!
Shallow embedding of `src/monte_carlo.py` (Monte Carlo option pricing engine)
over exact real arithmetic. The numpy random generator is modelled as a
stream of real draws `rng : ℕ → ℝ` together with a position counter: calling
`standard_normal((n, m))` reads the next `n * m` entries of the stream
(row-major) and advances the position. The numpy array of paths is modelled
as a `Grid` carrying its shape and an entry function. The only exception the
Python code can raise is a `ZeroDivisionError` from `dt = params.T / n_steps`
when `n_steps = 0`; this is captured with `Except`.
-/

noncomputable section

namespace MonteCarlo

/-- `OptionParams` dataclass: S0, K, T, r, sigma, option_type.
`option_type` is a plain string, as in the source (`Literal` is not enforced
at runtime). -/
structure OptionParams where
  S0 : ℝ
  K : ℝ
  T : ℝ
  r : ℝ
  sigma : ℝ
  option_type : String

/-- State of `MonteCarloEngine`: the simulation count, the random draw
stream, and how many draws have been consumed so far. -/
structure Engine where
  n_simulations : ℕ
  rng : ℕ → ℝ
  pos : ℕ

/-- `MonteCarloEngine.__init__`: `np.random.default_rng(seed)` is modelled by
an external source mapping each seed to a draw stream; a fresh engine starts
at position 0 of that stream. -/
def mkEngine (source : ℕ → ℕ → ℝ) (n_simulations seed : ℕ) : Engine :=
  ⟨n_simulations, source seed, 0⟩

/-- A 2-D numpy float array: its shape and an entry function
(entries outside the shape are irrelevant). -/
structure Grid where
  rows : ℕ
  cols : ℕ
  entry : ℕ → ℕ → ℝ

/-- The only exception reachable in the source: float division by zero
in `dt = params.T / n_steps`. -/
inductive PyError
  | zeroDivisionError

/-- One GBM update step, line 50-53 of the source:
`prev * exp((r - 0.5*sigma**2)*dt + sigma*sqrt(dt)*z)`. -/
def gbmStep (p : OptionParams) (dt prev z : ℝ) : ℝ :=
  prev * Real.exp ((p.r - 0.5 * p.sigma ^ 2) * dt + p.sigma * Real.sqrt dt * z)

/-- The price of one path after `t` steps: column 0 is `S0`, each later
column is the previous one through `gbmStep`, with `z t` the draw used for
step `t+1` (the source's `Z[:, t-1]`). -/
def pathPrice (p : OptionParams) (dt : ℝ) (z : ℕ → ℝ) : ℕ → ℝ
  | 0 => p.S0
  | t + 1 => gbmStep p dt (pathPrice p dt z t) (z t)

/-- The draws of row `i` of the matrix `Z = rng.standard_normal((n_simulations,
n_steps))`: numpy fills row-major from the stream, starting at the engine's
current position. -/
def rowDraws (e : Engine) (n_steps i : ℕ) : ℕ → ℝ :=
  fun j => e.rng (e.pos + i * n_steps + j)

/-- Body of `MonteCarloEngine.simulate_paths` (lines 39-55), which runs after
`dt = T / n_steps` succeeded: draw `Z`, build the `(n_simulations, n_steps+1)`
grid with column 0 equal to `S0` and the GBM recurrence for later columns, and
advance the generator by the `n_simulations * n_steps` consumed draws. -/
def simulate_pathsCore (e : Engine) (p : OptionParams) (n_steps : ℕ) :
    Grid × Engine :=
  (⟨e.n_simulations, n_steps + 1,
      fun i t => pathPrice p (p.T / n_steps) (rowDraws e n_steps i) t⟩,
    ⟨e.n_simulations, e.rng, e.pos + e.n_simulations * n_steps⟩)

/-- `MonteCarloEngine.simulate_paths`: the source performs no parameter
validation; the only failure is the `ZeroDivisionError` from
`dt = params.T / n_steps` when `n_steps = 0`, raised before any draw. -/
def simulate_paths (e : Engine) (p : OptionParams) (n_steps : ℕ) :
    Except PyError (Grid × Engine) :=
  if n_steps = 0 then .error .zeroDivisionError
  else .ok (simulate_pathsCore e p n_steps)

/-- `np.mean` of the first `n` entries of a vector. -/
def npMean (n : ℕ) (v : ℕ → ℝ) : ℝ := (∑ i ∈ Finset.range n, v i) / n

/-- `np.std` (default `ddof=0`, the population standard deviation) of the
first `n` entries of a vector. -/
def npStd (n : ℕ) (v : ℕ → ℝ) : ℝ :=
  Real.sqrt (npMean n (fun i => (v i - npMean n v) ^ 2))

/-- Per-path payoff, lines 68-71 of the source: the call payoff when
`option_type == 'call'`, the put payoff on every other string. -/
def payoff (p : OptionParams) (sT : ℝ) : ℝ :=
  if p.option_type = "call" then max (sT - p.K) 0 else max (p.K - sT) 0

/-- The dictionary returned by `price_option`. -/
structure PricingResult where
  price : ℝ
  std_error : ℝ
  ci_lower : ℝ
  ci_upper : ℝ
  paths : Grid

/-- Lines 65-89 of `price_option`: extract the last column `S_T = paths[:, -1]`,
compute payoffs, the discounted mean, the discounted standard error
`exp(-r*T) * np.std(payoffs) / sqrt(n_simulations)`, and the 95% interval
with half-width `1.96 * discounted_std_error`. -/
def estimate (p : OptionParams) (n_simulations : ℕ) (paths : Grid) :
    PricingResult :=
  let sT : ℕ → ℝ := fun i => paths.entry i (paths.cols - 1)
  let payoffs : ℕ → ℝ := fun i => payoff p (sT i)
  let option_price := Real.exp (-p.r * p.T) * npMean n_simulations payoffs
  let std_error := npStd n_simulations payoffs / Real.sqrt (n_simulations : ℝ)
  let discounted_std_error := Real.exp (-p.r * p.T) * std_error
  ⟨option_price, discounted_std_error,
    option_price - 1.96 * discounted_std_error,
    option_price + 1.96 * discounted_std_error, paths⟩

/-- `MonteCarloEngine.price_option`: simulate with the default
`n_steps = 252`, then run the estimator on the resulting grid. -/
def price_option (e : Engine) (p : OptionParams) :
    Except PyError (PricingResult × Engine) :=
  match simulate_paths e p 252 with
  | .error err => .error err
  | .ok (paths, e2) => .ok (estimate p e.n_simulations paths, e2)

/-- The (always reached) successful outcome of `price_option`:
since the internal call uses `n_steps = 252 ≠ 0`, no error can occur. -/
def price_optionRun (e : Engine) (p : OptionParams) : PricingResult × Engine :=
  (estimate p e.n_simulations (simulate_pathsCore e p 252).1,
    (simulate_pathsCore e p 252).2)

/-- `price_option` never raises: it always returns the `price_optionRun`
outcome. -/
theorem price_option_eq_run (e : Engine) (p : OptionParams) :
    price_option e p = .ok (price_optionRun e p) := by
  simp [price_option, simulate_paths, price_optionRun, simulate_pathsCore]

/-! Concrete inputs used by witnesses and counterexamples. -/

/-- A draw stream that is identically zero. -/
def zeroStream : ℕ → ℝ := fun _ => 0

/-- An engine with one simulation. -/
def eW : Engine := ⟨1, zeroStream, 0⟩

/-- An engine with five simulations. -/
def eW5 : Engine := ⟨5, zeroStream, 0⟩

/-- An engine with zero simulations (its grids have 0 rows). -/
def eZero : Engine := ⟨0, zeroStream, 0⟩

/-- The example call parameters from the bottom of the source file. -/
def pCall : OptionParams := ⟨100, 105, 1, 0.05, 0.2, "call"⟩

/-- The same parameters as a put. -/
def pPut : OptionParams := ⟨100, 105, 1, 0.05, 0.2, "put"⟩

/-- Parameters with non-positive maturity `T = -1`. -/
def pBadT : OptionParams := ⟨100, 105, -1, 0.05, 0.2, "call"⟩

/-- Parameters with an invalid option type string. -/
def pBanana : OptionParams := ⟨100, 105, 1, 0.05, 0.2, "banana"⟩

/-- Zero-volatility call parameters. -/
def pSigma0 : OptionParams := ⟨100, 105, 1, 0.05, 0, "call"⟩

/-- Claim C1: for every engine state and every `OptionParams`, `price_option`
computes the per-path payoff as `max(S_T - K, 0)` for a call and
`max(K - S_T, 0)` for a put, where `S_T` is the last column of the simulated
grid, and returns `price = exp(-r*T) * mean(payoffs)`. -/
theorem price_option_payoff_formula (e : Engine) (p : OptionParams) :
    (p.option_type = "call" →
      (price_optionRun e p).1.price =
        Real.exp (-p.r * p.T) * npMean e.n_simulations (fun i =>
          max ((price_optionRun e p).1.paths.entry i
            ((price_optionRun e p).1.paths.cols - 1) - p.K) 0)) ∧
    (p.option_type = "put" →
      (price_optionRun e p).1.price =
        Real.exp (-p.r * p.T) * npMean e.n_simulations (fun i =>
          max (p.K - (price_optionRun e p).1.paths.entry i
            ((price_optionRun e p).1.paths.cols - 1)) 0)) := by
  constructor <;> intro h <;> simp [price_optionRun, estimate, payoff, h]

/-- Witness for C1 at the example call and put parameters. -/
theorem price_option_payoff_formula_witness :
    (pCall.option_type = "call" ∧
      (price_optionRun eW pCall).1.price =
        Real.exp (-pCall.r * pCall.T) * npMean eW.n_simulations (fun i =>
          max ((price_optionRun eW pCall).1.paths.entry i
            ((price_optionRun eW pCall).1.paths.cols - 1) - pCall.K) 0)) ∧
    (pPut.option_type = "put" ∧
      (price_optionRun eW pPut).1.price =
        Real.exp (-pPut.r * pPut.T) * npMean eW.n_simulations (fun i =>
          max (pPut.K - (price_optionRun eW pPut).1.paths.entry i
            ((price_optionRun eW pPut).1.paths.cols - 1)) 0)) :=
  ⟨⟨rfl, (price_option_payoff_formula eW pCall).1 rfl⟩,
   ⟨rfl, (price_option_payoff_formula eW pPut).2 rfl⟩⟩

/-- Claim C2: for `n_steps ≥ 1`, `simulate_paths` succeeds with a grid of
shape `(n_simulations, n_steps + 1)` whose column 0 is `S0` in every row, and
for `1 ≤ t ≤ n_steps` column `t` is column `t-1` times
`exp((r - 0.5*sigma^2)*dt + sigma*sqrt(dt)*Z[t-1])` with `dt = T / n_steps`
and `Z` the next `n_simulations * n_steps` standard-normal draws of the
random source, read row-major. -/
theorem simulate_paths_grid_recurrence (e : Engine) (p : OptionParams)
    (ns : ℕ) (hns : 1 ≤ ns) (i t : ℕ) (hi : i < e.n_simulations)
    (ht : 1 ≤ t) (hts : t ≤ ns) :
    ∃ g e2, simulate_paths e p ns = .ok (g, e2) ∧
      g.rows = e.n_simulations ∧ g.cols = ns + 1 ∧ g.entry i 0 = p.S0 ∧
      g.entry i t = g.entry i (t - 1) *
        Real.exp ((p.r - 0.5 * p.sigma ^ 2) * (p.T / ns) +
          p.sigma * Real.sqrt (p.T / ns) * e.rng (e.pos + i * ns + (t - 1))) := by
  refine ⟨(simulate_pathsCore e p ns).1, (simulate_pathsCore e p ns).2,
    ?_, rfl, rfl, rfl, ?_⟩
  · have hne : ns ≠ 0 := by omega
    simp [simulate_paths, hne]
  · obtain ⟨s, rfl⟩ : ∃ s, t = s + 1 := ⟨t - 1, by omega⟩
    simp [simulate_pathsCore, pathPrice, gbmStep, rowDraws]

/-- Witness for C2 with one simulation, two steps, row 0, column 1. -/
theorem simulate_paths_grid_recurrence_witness :
    (1 ≤ 2 ∧ 0 < eW.n_simulations ∧ 1 ≤ 1 ∧ 1 ≤ 2) ∧
    (∃ g e2, simulate_paths eW pCall 2 = .ok (g, e2) ∧
      g.rows = eW.n_simulations ∧ g.cols = 2 + 1 ∧ g.entry 0 0 = pCall.S0 ∧
      g.entry 0 1 = g.entry 0 (1 - 1) *
        Real.exp ((pCall.r - 0.5 * pCall.sigma ^ 2) * (pCall.T / 2) +
          pCall.sigma * Real.sqrt (pCall.T / 2) *
            eW.rng (eW.pos + 0 * 2 + (1 - 1)))) :=
  ⟨⟨by decide, by decide, by decide, by decide⟩,
    by
      have h := simulate_paths_grid_recurrence eW pCall 2 (by decide) 0 1
        (by decide) (by decide) (by decide)
      simpa using h⟩

/-- Claim C3: the returned `std_error` is
`exp(-r*T) * stdev(payoffs) / sqrt(n_simulations)` with the population
standard deviation, `ci_lower = price - 1.96 * std_error`,
`ci_upper = price + 1.96 * std_error`, `std_error ≥ 0`, and consequently
`ci_lower ≤ price ≤ ci_upper`. -/
theorem price_option_stderr_ci (e : Engine) (p : OptionParams)
    (hn : 1 ≤ e.n_simulations) :
    (price_optionRun e p).1.std_error =
      Real.exp (-p.r * p.T) *
        npStd e.n_simulations (fun i => payoff p
          ((price_optionRun e p).1.paths.entry i
            ((price_optionRun e p).1.paths.cols - 1))) /
        Real.sqrt (e.n_simulations : ℝ) ∧
    (price_optionRun e p).1.ci_lower =
      (price_optionRun e p).1.price - 1.96 * (price_optionRun e p).1.std_error ∧
    (price_optionRun e p).1.ci_upper =
      (price_optionRun e p).1.price + 1.96 * (price_optionRun e p).1.std_error ∧
    0 ≤ (price_optionRun e p).1.std_error ∧
    (price_optionRun e p).1.ci_lower ≤ (price_optionRun e p).1.price ∧
    (price_optionRun e p).1.price ≤ (price_optionRun e p).1.ci_upper := by
  have hse : 0 ≤ (price_optionRun e p).1.std_error := by
    simp only [price_optionRun, estimate, npStd]
    positivity
  have hl : (price_optionRun e p).1.ci_lower =
      (price_optionRun e p).1.price -
        1.96 * (price_optionRun e p).1.std_error := rfl
  have hu : (price_optionRun e p).1.ci_upper =
      (price_optionRun e p).1.price +
        1.96 * (price_optionRun e p).1.std_error := rfl
  refine ⟨?_, hl, hu, hse, ?_, ?_⟩
  · rw [mul_div_assoc]; rfl
  · rw [hl]; linarith
  · rw [hu]; linarith

/-- Witness for C3 at the example call parameters with one simulation. -/
theorem price_option_stderr_ci_witness :
    1 ≤ eW.n_simulations ∧
    ((price_optionRun eW pCall).1.std_error =
      Real.exp (-pCall.r * pCall.T) *
        npStd eW.n_simulations (fun i => payoff pCall
          ((price_optionRun eW pCall).1.paths.entry i
            ((price_optionRun eW pCall).1.paths.cols - 1))) /
        Real.sqrt (eW.n_simulations : ℝ) ∧
    (price_optionRun eW pCall).1.ci_lower =
      (price_optionRun eW pCall).1.price -
        1.96 * (price_optionRun eW pCall).1.std_error ∧
    (price_optionRun eW pCall).1.ci_upper =
      (price_optionRun eW pCall).1.price +
        1.96 * (price_optionRun eW pCall).1.std_error ∧
    0 ≤ (price_optionRun eW pCall).1.std_error ∧
    (price_optionRun eW pCall).1.ci_lower ≤ (price_optionRun eW pCall).1.price ∧
    (price_optionRun eW pCall).1.price ≤ (price_optionRun eW pCall).1.ci_upper) :=
  ⟨by decide, price_option_stderr_ci eW pCall (by decide)⟩

/-- Claim C4 (amended): `simulate_paths` performs no parameter validation.
With any parameters (in particular `T ≤ 0`, `S0 ≤ 0` or `K ≤ 0`) and any
`n_steps ≠ 0` it returns a grid normally; `n_steps = 0` alone fails, with a
`ZeroDivisionError` from `dt = T / n_steps`, not an `InvalidParameter`. -/
theorem simulate_paths_no_parameter_validation (e : Engine) (p : OptionParams)
    (ns : ℕ) (hns : ns ≠ 0) :
    simulate_paths e p ns = .ok (simulate_pathsCore e p ns) ∧
    simulate_paths e p 0 = .error PyError.zeroDivisionError := by
  constructor
  · simp [simulate_paths, hns]
  · simp [simulate_paths]

/-- Counterexample to C4 as stated: with `T = -1 ≤ 0` (and `S0, K > 0`),
`simulate_paths` does not fail at all — it returns a grid. -/
theorem simulate_paths_ok_on_nonpositive_T :
    simulate_paths eW5 pBadT 2 = .ok (simulate_pathsCore eW5 pBadT 2) := by
  simp [simulate_paths]

/-- Witness for the amended C4 at `n_steps = 2` with `T = -1`. -/
theorem simulate_paths_no_parameter_validation_witness :
    (2 : ℕ) ≠ 0 ∧
    (simulate_paths eW5 pBadT 2 = .ok (simulate_pathsCore eW5 pBadT 2) ∧
      simulate_paths eW5 pBadT 0 = .error PyError.zeroDivisionError) :=
  ⟨by decide, simulate_paths_no_parameter_validation eW5 pBadT 2 (by decide)⟩

/-- Claim C5 (amended): `price_option` takes no grid argument — it always
simulates internally with 252 steps — and performs no shape validation: for
every engine state, including `n_simulations = 0` (a 0-row grid), it returns
a result without raising, and the grid it uses always has 253 ≥ 1 columns. -/
theorem price_option_no_shape_validation (e : Engine) (p : OptionParams) :
    price_option e p = .ok (price_optionRun e p) ∧
    (price_optionRun e p).1.paths.rows = e.n_simulations ∧
    (price_optionRun e p).1.paths.cols = 253 :=
  ⟨price_option_eq_run e p, rfl, rfl⟩

/-- Counterexample to C5 as stated: on an engine whose grid has 0 rows,
`price_option` raises nothing and returns a result. -/
theorem price_option_ok_on_zero_rows :
    price_option eZero pCall = .ok (price_optionRun eZero pCall) ∧
    (price_optionRun eZero pCall).1.paths.rows = 0 := by
  refine ⟨?_, rfl⟩
  simp [price_option, simulate_paths, price_optionRun]

/-- With zero volatility the GBM recurrence degenerates to pure drift:
after `t` steps the path price is `S0 * exp(r * dt * t)`. -/
theorem pathPrice_sigma_zero (p : OptionParams) (hs : p.sigma = 0) (dt : ℝ)
    (z : ℕ → ℝ) (t : ℕ) :
    pathPrice p dt z t = p.S0 * Real.exp (p.r * dt * t) := by
  induction t with
  | zero => simp [pathPrice]
  | succ t ih =>
    simp only [pathPrice, gbmStep, ih, hs]
    rw [mul_assoc, ← Real.exp_add]
    congr 1
    push_cast
    ring

/-- The mean of a constant vector of positive length is that constant. -/
theorem npMean_const (n : ℕ) (hn : n ≠ 0) (c : ℝ) :
    npMean n (fun _ => c) = c := by
  unfold npMean
  rw [Finset.sum_const, Finset.card_range, nsmul_eq_mul,
    mul_div_cancel_left₀ c (Nat.cast_ne_zero.mpr hn)]

/-- The population standard deviation of a constant vector of positive
length is zero. -/
theorem npStd_const (n : ℕ) (hn : n ≠ 0) (c : ℝ) :
    npStd n (fun _ => c) = 0 := by
  unfold npStd
  rw [npMean_const n hn c]
  simp [npMean]

/-- Claim C6: with `sigma = 0` and at least one simulation, every path's
terminal price is `S0 * exp(r*T)` exactly, the price is the discounted
intrinsic payoff (`exp(-r*T) * max(S0*exp(r*T) - K, 0)` for a call,
`exp(-r*T) * max(K - S0*exp(r*T), 0)` for a put), and `std_error = 0` —
with no special case in the definitions. -/
theorem price_option_sigma_zero (e : Engine) (p : OptionParams)
    (hs : p.sigma = 0) (hn : 1 ≤ e.n_simulations) (i : ℕ)
    (hi : i < e.n_simulations) :
    (price_optionRun e p).1.paths.entry i 252 = p.S0 * Real.exp (p.r * p.T) ∧
    (p.option_type = "call" →
      (price_optionRun e p).1.price =
        Real.exp (-p.r * p.T) * max (p.S0 * Real.exp (p.r * p.T) - p.K) 0) ∧
    (p.option_type = "put" →
      (price_optionRun e p).1.price =
        Real.exp (-p.r * p.T) * max (p.K - p.S0 * Real.exp (p.r * p.T)) 0) ∧
    (price_optionRun e p).1.std_error = 0 := by
  have hne : e.n_simulations ≠ 0 := by omega
  have hterm : ∀ j : ℕ,
      (price_optionRun e p).1.paths.entry j 252 =
        p.S0 * Real.exp (p.r * p.T) := by
    intro j
    show pathPrice p (p.T / ((252 : ℕ) : ℝ)) (rowDraws e 252 j) 252 = _
    rw [pathPrice_sigma_zero p hs]
    congr 1
    push_cast
    field_simp
  have hpayc : (fun j : ℕ =>
        payoff p ((price_optionRun e p).1.paths.entry j 252)) =
      fun _ : ℕ => payoff p (p.S0 * Real.exp (p.r * p.T)) :=
    funext fun j => by rw [hterm j]
  have hprice : (price_optionRun e p).1.price =
      Real.exp (-p.r * p.T) * npMean e.n_simulations
        (fun j => payoff p ((price_optionRun e p).1.paths.entry j 252)) := rfl
  have hse : (price_optionRun e p).1.std_error =
      Real.exp (-p.r * p.T) *
        (npStd e.n_simulations
          (fun j => payoff p ((price_optionRun e p).1.paths.entry j 252)) /
          Real.sqrt (e.n_simulations : ℝ)) := rfl
  refine ⟨hterm i, ?_, ?_, ?_⟩
  · intro hcall
    rw [hprice, hpayc, npMean_const _ hne]
    simp [payoff, hcall]
  · intro hput
    rw [hprice, hpayc, npMean_const _ hne]
    simp [payoff, hput]
  · rw [hse, hpayc, npStd_const _ hne, zero_div, mul_zero]

/-- Witness for C6 at zero-volatility call parameters with one simulation. -/
theorem price_option_sigma_zero_witness :
    (pSigma0.sigma = 0 ∧ 1 ≤ eW.n_simulations ∧ 0 < eW.n_simulations) ∧
    ((price_optionRun eW pSigma0).1.paths.entry 0 252 =
        pSigma0.S0 * Real.exp (pSigma0.r * pSigma0.T) ∧
      (pSigma0.option_type = "call" →
        (price_optionRun eW pSigma0).1.price =
          Real.exp (-pSigma0.r * pSigma0.T) *
            max (pSigma0.S0 * Real.exp (pSigma0.r * pSigma0.T) - pSigma0.K) 0) ∧
      (pSigma0.option_type = "put" →
        (price_optionRun eW pSigma0).1.price =
          Real.exp (-pSigma0.r * pSigma0.T) *
            max (pSigma0.K - pSigma0.S0 * Real.exp (pSigma0.r * pSigma0.T)) 0) ∧
      (price_optionRun eW pSigma0).1.std_error = 0) :=
  ⟨⟨rfl, by decide, by decide⟩,
    price_option_sigma_zero eW pSigma0 rfl (by decide) 0 (by decide)⟩

/-- Claim C7: the whole computation is a deterministic function of
`(n_simulations, seed, params)`: two freshly constructed engines whose
sources agree on the seed's draw stream produce identical results
(all four statistics and the full path grid). -/
theorem price_option_deterministic (n seed : ℕ) (s1 s2 : ℕ → ℕ → ℝ)
    (p : OptionParams) (h : s1 seed = s2 seed) :
    price_optionRun (mkEngine s1 n seed) p =
      price_optionRun (mkEngine s2 n seed) p := by
  unfold mkEngine
  rw [h]

/-- A draw source assigning the zero stream to every seed. -/
def constSource : ℕ → ℕ → ℝ := fun _ => zeroStream

/-- Witness for C7: two runs from seed 7 with the same source coincide. -/
theorem price_option_deterministic_witness :
    constSource 7 = constSource 7 ∧
    price_optionRun (mkEngine constSource 3 7) pCall =
      price_optionRun (mkEngine constSource 3 7) pCall :=
  ⟨rfl, price_option_deterministic 3 7 constSource constSource pCall rfl⟩

/-- Claim C8: the returned price is non-negative: payoffs are `max _ 0 ≥ 0`
and the discount factor `exp(-r*T)` is positive. -/
theorem price_option_price_nonneg (e : Engine) (p : OptionParams)
    (hn : 1 ≤ e.n_simulations) :
    0 ≤ (price_optionRun e p).1.price := by
  have hprice : (price_optionRun e p).1.price =
      Real.exp (-p.r * p.T) * npMean e.n_simulations
        (fun j => payoff p ((price_optionRun e p).1.paths.entry j 252)) := rfl
  rw [hprice]
  apply mul_nonneg (Real.exp_pos _).le
  unfold npMean
  apply div_nonneg _ (Nat.cast_nonneg _)
  apply Finset.sum_nonneg
  intro j _
  unfold payoff
  split <;> exact le_max_right _ _

/-- Witness for C8 at the example call parameters with one simulation. -/
theorem price_option_price_nonneg_witness :
    1 ≤ eW.n_simulations ∧ 0 ≤ (price_optionRun eW pCall).1.price :=
  ⟨by decide, price_option_price_nonneg eW pCall (by decide)⟩

/-- Claim C9: `simulate_paths` advances the engine's draw position by
exactly `n_simulations * n_steps` and changes no other field; the draw used
for `Z[i, j]` is read at the engine's current position offset row-major, it
lies strictly inside the block consumed by this call, and every draw of a
subsequent call starts at or after the end of that block — so two
consecutive calls consume disjoint draws, and `price_option` (which advances
the position by `n_simulations * 252`) depends on the generator state, not
on its arguments alone. -/
theorem simulate_paths_frame_effect (e : Engine) (p : OptionParams)
    (ns i j : ℕ) (hi : i < e.n_simulations) (hj : j < ns) :
    (simulate_pathsCore e p ns).2.pos = e.pos + e.n_simulations * ns ∧
    (simulate_pathsCore e p ns).2.rng = e.rng ∧
    (simulate_pathsCore e p ns).2.n_simulations = e.n_simulations ∧
    rowDraws e ns i j = e.rng (e.pos + i * ns + j) ∧
    e.pos + i * ns + j < e.pos + e.n_simulations * ns ∧
    e.pos + e.n_simulations * ns ≤
      (simulate_pathsCore e p ns).2.pos + i * ns + j ∧
    (price_optionRun e p).2.pos = e.pos + e.n_simulations * 252 := by
  have key : i * ns + j < e.n_simulations * ns := by
    have h1 : i * ns + j < (i + 1) * ns := by
      rw [Nat.succ_mul]
      omega
    exact lt_of_lt_of_le h1 (Nat.mul_le_mul hi (Nat.le_refl ns))
  refine ⟨rfl, rfl, rfl, rfl, ?_, ?_, rfl⟩
  · rw [add_assoc]
    exact Nat.add_lt_add_left key e.pos
  · show e.pos + e.n_simulations * ns ≤
      e.pos + e.n_simulations * ns + i * ns + j
    exact le_trans (Nat.le_add_right _ _) (Nat.le_add_right _ _)

/-- Witness for C9 with five simulations, three steps, row 2, column 1. -/
theorem simulate_paths_frame_effect_witness :
    ((2 : ℕ) < eW5.n_simulations ∧ (1 : ℕ) < 3) ∧
    ((simulate_pathsCore eW5 pCall 3).2.pos =
        eW5.pos + eW5.n_simulations * 3 ∧
      (simulate_pathsCore eW5 pCall 3).2.rng = eW5.rng ∧
      (simulate_pathsCore eW5 pCall 3).2.n_simulations = eW5.n_simulations ∧
      rowDraws eW5 3 2 1 = eW5.rng (eW5.pos + 2 * 3 + 1) ∧
      eW5.pos + 2 * 3 + 1 < eW5.pos + eW5.n_simulations * 3 ∧
      eW5.pos + eW5.n_simulations * 3 ≤
        (simulate_pathsCore eW5 pCall 3).2.pos + 2 * 3 + 1 ∧
      (price_optionRun eW5 pCall).2.pos =
        eW5.pos + eW5.n_simulations * 252) :=
  ⟨⟨by decide, by decide⟩,
    simulate_paths_frame_effect eW5 pCall 3 2 1 (by decide) (by decide)⟩

/-- Claim C10: any `option_type` other than the exact string `"call"`
(including `"banana"`) raises no error and is priced as a put:
there is no validation of `option_type`. -/
theorem price_option_put_on_any_other_string (e : Engine) (p : OptionParams)
    (h : p.option_type ≠ "call") :
    price_option e p = .ok (price_optionRun e p) ∧
    (price_optionRun e p).1.price =
      Real.exp (-p.r * p.T) * npMean e.n_simulations (fun i =>
        max (p.K - (price_optionRun e p).1.paths.entry i
          ((price_optionRun e p).1.paths.cols - 1)) 0) := by
  refine ⟨price_option_eq_run e p, ?_⟩
  have hprice : (price_optionRun e p).1.price =
      Real.exp (-p.r * p.T) * npMean e.n_simulations
        (fun i => payoff p ((price_optionRun e p).1.paths.entry i
          ((price_optionRun e p).1.paths.cols - 1))) := rfl
  rw [hprice]
  congr 1
  exact congrArg (npMean e.n_simulations)
    (funext fun i => by unfold payoff; rw [if_neg h])

/-- Witness for C10 with the invalid option type `"banana"`. -/
theorem price_option_put_on_any_other_string_witness :
    pBanana.option_type ≠ "call" ∧
    (price_option eW pBanana = .ok (price_optionRun eW pBanana) ∧
      (price_optionRun eW pBanana).1.price =
        Real.exp (-pBanana.r * pBanana.T) * npMean eW.n_simulations (fun i =>
          max (pBanana.K - (price_optionRun eW pBanana).1.paths.entry i
            ((price_optionRun eW pBanana).1.paths.cols - 1)) 0)) :=
  ⟨by decide, price_option_put_on_any_other_string eW pBanana (by decide)⟩

end MonteCarlo

end
